import Mathlib

/-!
Verification development for the mini-challenge repository.

Part 1 models the frontend feedback code that is present in the source tree
(src/.agents/examples/frontend): the Langfuse score submission helper,
the conversation-rating hook, and the conversation-rating widget.

Part 2 models the citation-grounded evidence verification pipeline that the
repository describes (PRD and spec) but does not implement; those
definitions are marked as modelled from the spec.
-/

/-! ## Frontend: JavaScript value helpers -/

/-- Truthiness of a JavaScript value of type string-or-undefined: undefined
and the empty string are falsy, every other string is truthy. -/
def jsTruthy : Option String → Bool
  | none => false
  | some s => decide (s ≠ "")

/-- The JavaScript expression x OR undefined applied to a string-or-undefined
value: a falsy value collapses to undefined. -/
def jsOrUndefined (x : Option String) : Option String :=
  if jsTruthy x then x else none

/-! ## Frontend: langfuse.ts -/

/-- Environment variables read by getLangfuseClient: VITE_LANGFUSE_PUBLIC_KEY
and VITE_LANGFUSE_HOST, each possibly undefined. -/
structure LangfuseEnv where
  publicKey : Option String
  host : Option String
deriving DecidableEq, Repr

/-- The constructed LangfuseWeb client, as configured by getLangfuseClient. -/
structure LangfuseClient where
  publicKey : String
  baseUrl : String
deriving DecidableEq, Repr

/-- Embedding of getLangfuseClient from src/lib/langfuse.ts: returns none
when VITE_LANGFUSE_PUBLIC_KEY is falsy (graceful degradation), otherwise a
client whose baseUrl falls back to the public cloud host. -/
def getLangfuseClient (env : LangfuseEnv) : Option LangfuseClient :=
  match env.publicKey with
  | none => none
  | some k =>
    if k = "" then none
    else
      some ⟨k,
        match env.host with
        | none => "https://cloud.langfuse.com"
        | some h => if h = "" then "https://cloud.langfuse.com" else h⟩

/-- Parameters of submitScore in src/lib/langfuse.ts. -/
structure ScoreParams where
  traceId : Option String
  name : String
  value : ℚ
  comment : Option String
deriving DecidableEq, Repr

/-- Outcome of one submitScore call: the boolean the promise resolves to,
and whether the underlying client.score call completed without error. -/
structure ScoreSubmission where
  result : Bool
  submitted : Bool
deriving DecidableEq, Repr

/-- Embedding of submitScore from src/lib/langfuse.ts. The scoreThrows flag
models whether the awaited client.score call throws; the try-catch absorbs
that case and resolves to false. -/
def submitScore (params : ScoreParams) (env : LangfuseEnv) (scoreThrows : Bool) :
    ScoreSubmission :=
  if jsTruthy params.traceId = false then ⟨false, false⟩
  else
    match getLangfuseClient env with
    | none => ⟨false, false⟩
    | some _ => if scoreThrows then ⟨false, false⟩ else ⟨true, true⟩

/-! ## Frontend: useConversationRating.ts -/

/-- Digit prefix of a character list, as parseInt with radix 10 reads it. -/
def leadingDigits (cs : List Char) : List Char :=
  cs.takeWhile (fun c => c.isDigit)

/-- Numeric value of a list of decimal digits. -/
def digitsToNat (ds : List Char) : ℕ :=
  ds.foldl (fun acc c => acc * 10 + (c.toNat - ('0').toNat)) 0

/-- Embedding of the JavaScript parseInt(s, 10) call: after an optional
sign, the longest decimal-digit prefix is read; none stands for NaN. -/
def jsParseInt (s : String) : Option Int :=
  match s.toList with
  | '-' :: rest =>
    let ds := leadingDigits rest
    if ds = [] then none else some (-(digitsToNat ds : Int))
  | '+' :: rest =>
    let ds := leadingDigits rest
    if ds = [] then none else some ((digitsToNat ds : Int))
  | cs =>
    let ds := leadingDigits cs
    if ds = [] then none else some ((digitsToNat ds : Int))

/-- The split-map-filter part of parseThresholds: split the variable on
commas, parse each trimmed piece with parseInt(_, 10), and keep the entries
that are neither NaN nor non-positive. -/
def parsedFiltered (s : String) : List Int :=
  (((s.splitOn ",").map (fun piece => jsParseInt piece.trim)).filterMap id).filter
    (fun n => decide (0 < n))

/-- Default rating thresholds of useConversationRating.ts. -/
def defaultThresholds : List Int := [5, 10, 15, 20, 25, 30]

/-- Embedding of parseThresholds from src/hooks/useConversationRating.ts,
as a function of the VITE_RATING_THRESHOLDS environment variable. -/
def parseThresholds (env : Option String) : List Int :=
  match env with
  | none => defaultThresholds
  | some s =>
    if s = "" then defaultThresholds
    else if parsedFiltered s = [] then defaultThresholds
    else parsedFiltered s

/-- Message type tag of database.types.ts: human or ai. -/
inductive MsgType where
  | human
  | ai
deriving DecidableEq, Repr

/-- Inner message payload: type, content, and an optional trace id. -/
structure InnerMessage where
  type : MsgType
  content : String
  trace_id : Option String
deriving DecidableEq, Repr

/-- A stored chat message as the hook receives it. -/
structure Message where
  session_id : String
  message : InnerMessage
deriving DecidableEq, Repr

/-- Count of messages whose payload type is ai, as computed by the hook. -/
def aiMessageCount (msgs : List Message) : ℕ :=
  (msgs.filter (fun m => decide (m.message.type = MsgType.ai))).length

/-- Embedding of the effect in useConversationRating: find the first
threshold equal to the ai-message count and not yet dismissed, and show the
popup when that (truthy, hence nonzero) threshold exists. -/
def shouldShowRating (thresholds : List Int) (dismissed : List Int) (count : ℕ) : Bool :=
  match thresholds.find? (fun t => decide ((count : Int) = t) && !(dismissed.contains t)) with
  | some t => decide (t ≠ 0)
  | none => false

/-! ## Frontend: ConversationRating.tsx -/

/-- The four rating options of ConversationRating.tsx with their values. -/
def ratingOptions : List (String × ℚ) :=
  [("Very good", 1), ("Good", 67/100), ("Not so good", 33/100), ("Bad", 0)]

/-- Observable effects of the widget handlers: opening the comment box,
calling submitScore with these arguments, and calling onComplete. -/
inductive RatingEffect where
  | showCommentBox
  | score (traceId : String) (name : String) (value : ℚ) (comment : Option String)
  | complete
deriving DecidableEq, Repr

/-- Embedding of submitRating from ConversationRating.tsx: a falsy traceId
short-circuits to onComplete with no submission; otherwise submitScore is
awaited with the conversation_rating name and then onComplete runs. -/
def submitRating (traceId : Option String) (value : ℚ) (commentText : Option String) :
    List RatingEffect :=
  match traceId with
  | none => [RatingEffect.complete]
  | some tid =>
    if tid = "" then [RatingEffect.complete]
    else
      [RatingEffect.score tid "conversation_rating" value (jsOrUndefined commentText),
       RatingEffect.complete]

/-- Embedding of handleSelect from ConversationRating.tsx: the value 0.0
opens the comment box, any other value submits immediately with no comment. -/
def handleSelect (traceId : Option String) (value : ℚ) : List RatingEffect :=
  if value = 0 then [RatingEffect.showCommentBox]
  else submitRating traceId value none

/-! ## Pipeline data model (modelled from the spec) -/

/-- Modelled from the spec: the repository describes but does not implement
the verification pipeline; relation tag of an evidence span (SUPPORTS,
CONTRADICTS or NEUTRAL). -/
inductive Relation where
  | SUPPORTS
  | CONTRADICTS
  | NEUTRAL
deriving DecidableEq, Repr

/-- Modelled from the spec: an atomic factual assertion extracted from a
draft, with its character span in the draft. -/
structure Claim where
  text : String
  source_span : ℕ × ℕ
deriving DecidableEq, Repr

/-- Modelled from the spec: a located corpus passage bearing on a claim. -/
structure EvidenceSpan where
  file_id : String
  line_range : ℕ × ℕ
  quoted_text : String
  relation : Relation
  match_score : ℚ
deriving DecidableEq, Repr

/-- Modelled from the spec: per-claim verification status. -/
inductive VStatus where
  | VERIFIED
  | PARTIALLY_VERIFIED
  | UNVERIFIED
  | CONTRADICTED
  | NO_EVIDENCE
deriving DecidableEq, Repr

/-- Modelled from the spec: outcome of scoring one claim against its
evidence set. -/
structure VerificationRecord where
  claim : Claim
  evidence : List EvidenceSpan
  status : VStatus
  confidence : ℚ
deriving DecidableEq, Repr

/-- Modelled from the spec: assembler policy, STRICT removes unverified
claims and LENIENT merely flags them. -/
inductive AssemblyMode where
  | STRICT
  | LENIENT
deriving DecidableEq, Repr

/-- Modelled from the spec: overall confidence of an assembled answer. -/
inductive OverallConfidence where
  | NONE
  | LOW
  | MEDIUM
  | HIGH
deriving DecidableEq, Repr

/-- Modelled from the spec: result of verify_and_assemble. -/
structure VerificationResult where
  final_answer : String
  excluded_claims : List Claim
  overall_confidence : OverallConfidence
deriving DecidableEq, Repr

/-! ## Corpus access (modelled from the spec) -/

/-- Modelled from the spec: the line-addressable read-only corpus, a list of
files given as an identifier and their lines. -/
abbrev Corpus : Type := List (String × List String)

/-- Lines of one corpus file, empty when the identifier is unknown. -/
def lookupFile (corpus : Corpus) (fid : String) : List String :=
  match List.find? (fun p => decide (p.1 = fid)) corpus with
  | some p => p.2
  | none => []

/-- Newline join of a list of lines. -/
def joinNL : List String → String
  | [] => ""
  | [s] => s
  | s :: rest => s ++ "\n" ++ joinNL rest

/-- Modelled from the spec: the read_lines capability of the CorpusIndex,
reading the 1-indexed inclusive line range of one file. -/
def readLines (corpus : Corpus) (fid : String) (range : ℕ × ℕ) : String :=
  joinNL (((lookupFile corpus fid).drop (range.1 - 1)).take (range.2 - range.1 + 1))

/-! ## Evidence Locator (modelled from the spec) -/

/-- Modelled from the spec: candidate spans of one file, one per line, each
quoting exactly that line and scored against the claim text by the pluggable
similarity strategy sim, with its relation classified by rel. -/
def fileSpans (sim : String → String → ℚ) (rel : String → String → Relation)
    (claimText : String) (fid : String) (lines : List String) : List EvidenceSpan :=
  (List.range lines.length).map (fun i =>
    let q := lines.getD i ""
    { file_id := fid
      line_range := (i + 1, i + 1)
      quoted_text := q
      relation := rel claimText q
      match_score := sim claimText q })

/-- Whether a file identifier falls inside an optional search scope. -/
def inScope (scope : Option (List String)) (fid : String) : Bool :=
  match scope with
  | none => true
  | some fids => fids.contains fid

/-- Sort key of an evidence span: match_score descending, then file_id and
line range ascending (the deterministic tie-break the spec requires). -/
def spanKey (e : EvidenceSpan) : Lex (ℚ × Lex (String × Lex (ℕ × ℕ))) :=
  toLex (-e.match_score, toLex (e.file_id, toLex (e.line_range.1, e.line_range.2)))

/-- Ranking order on evidence spans, via the sort key. -/
def spanLE (a b : EvidenceSpan) : Prop :=
  spanKey a ≤ spanKey b

instance : DecidableRel spanLE :=
  fun a b => inferInstanceAs (Decidable (spanKey a ≤ spanKey b))

instance : IsTotal EvidenceSpan spanLE :=
  ⟨fun a b => le_total (spanKey a) (spanKey b)⟩

instance : IsTrans EvidenceSpan spanLE :=
  ⟨fun _ _ _ hab hbc => le_trans hab hbc⟩

/-- Modelled from the spec: the Evidence Locator. All in-scope lines are
scored, ranked by match_score descending with the file_id and line-range
tie-break, and the top max_results spans are returned. -/
def locateEvidence (sim : String → String → ℚ) (rel : String → String → Relation)
    (corpus : Corpus) (claim : Claim) (scope : Option (List String))
    (maxResults : ℕ) : List EvidenceSpan :=
  let files := corpus.filter (fun p => inScope scope p.1)
  let cands := files.flatMap (fun p => fileSpans sim rel claim.text p.1 p.2)
  (List.insertionSort spanLE cands).take maxResults

/-! ## Confidence Scorer (modelled from the spec) -/

/-- Modelled from the spec: the contradiction threshold of the scoring
table. -/
def contradictionThreshold : ℚ := 1/2

/-- Modelled from the spec: the high-confidence bound of the scoring
table. -/
def highThreshold : ℚ := 9/10

/-- Modelled from the spec: the partial-verification floor of the scoring
table. -/
def partialFloor : ℚ := 1/2

/-- Modelled from the spec: the deterministic status table of the
Confidence Scorer, applied to the best (highest ranked) evidence span with
the caller-configurable confidence threshold t. -/
def scoreStatus (t : ℚ) (best : EvidenceSpan) : VStatus :=
  if best.relation = Relation.CONTRADICTS ∧ contradictionThreshold ≤ best.match_score then
    VStatus.CONTRADICTED
  else if best.relation = Relation.SUPPORTS ∧ highThreshold ≤ best.match_score then
    VStatus.VERIFIED
  else if best.relation = Relation.SUPPORTS ∧ t ≤ best.match_score then
    VStatus.VERIFIED
  else if partialFloor ≤ best.match_score then
    VStatus.PARTIALLY_VERIFIED
  else
    VStatus.UNVERIFIED

/-- Modelled from the spec: the Confidence Scorer reduces one claim and its
ranked evidence to a VerificationRecord; empty evidence is NO_EVIDENCE. -/
def scoreClaim (c : Claim) (evidence : List EvidenceSpan) (t : ℚ) : VerificationRecord :=
  match evidence with
  | [] => ⟨c, [], VStatus.NO_EVIDENCE, 0⟩
  | best :: rest => ⟨c, best :: rest, scoreStatus t best, best.match_score⟩

/-! ## Response Assembler (modelled from the spec) -/

/-- Modelled from the spec: the fixed fallback answer when every claim is
excluded. -/
def FALLBACK : String :=
  "I could not find information about this in the available documents."

/-- Citation marker for one evidence span, bit-exact per the spec: a single
line cites file colon line, a range cites file colon start dash end. -/
def citeSpan (e : EvidenceSpan) : String :=
  "[" ++ e.file_id ++ ":" ++ toString e.line_range.1 ++
    (if e.line_range.2 = e.line_range.1 then "" else "-" ++ toString e.line_range.2) ++ "]"

/-- Citation of the best-ranked span of a record, empty for no evidence. -/
def citeBest : List EvidenceSpan → String
  | [] => ""
  | e :: _ => citeSpan e

/-- Modelled from the spec: whether the Response Assembler removes the text
of a record from the final answer in the given mode. -/
def isExcluded (mode : AssemblyMode) (r : VerificationRecord) : Bool :=
  match r.status with
  | VStatus.CONTRADICTED => true
  | VStatus.NO_EVIDENCE => true
  | VStatus.UNVERIFIED => decide (mode = AssemblyMode.STRICT)
  | _ => false

/-- Whether a record appears in the excluded_claims audit list: excluded or
flagged-not-excluded statuses. -/
def statusBad (r : VerificationRecord) : Bool :=
  match r.status with
  | VStatus.UNVERIFIED => true
  | VStatus.CONTRADICTED => true
  | VStatus.NO_EVIDENCE => true
  | _ => false

/-- Order on records by the source span of their claim, used to restore
draft order before stitching. -/
def recLE (a b : VerificationRecord) : Prop :=
  toLex a.claim.source_span ≤ toLex b.claim.source_span

instance : DecidableRel recLE :=
  fun a b => inferInstanceAs (Decidable (toLex a.claim.source_span ≤ toLex b.claim.source_span))

/-- Records re-sorted into draft order by source span. -/
def sortRecords (records : List VerificationRecord) : List VerificationRecord :=
  List.insertionSort recLE records

/-- Records whose text the assembler keeps in the final answer. -/
def keptRecords (mode : AssemblyMode) (records : List VerificationRecord) :
    List VerificationRecord :=
  (sortRecords records).filter (fun r => !(isExcluded mode r))

/-- Rendered text of one kept record: the claim text with its citation, a
caveat marker for partial verification, or an unverified flag. -/
def renderRecord (r : VerificationRecord) : String :=
  match r.status with
  | VStatus.VERIFIED => r.claim.text ++ " " ++ citeBest r.evidence
  | VStatus.PARTIALLY_VERIFIED => r.claim.text ++ " " ++ citeBest r.evidence ++ " (caveat)"
  | VStatus.UNVERIFIED => r.claim.text ++ " (unverified)"
  | _ => ""

/-- Space join of rendered record texts. -/
def joinSpace : List String → String
  | [] => ""
  | [s] => s
  | s :: rest => s ++ " " ++ joinSpace rest

/-- Modelled from the spec: overall confidence derived from the per-claim
status distribution, NONE exactly when there is no claim. -/
def overallConfidence (records : List VerificationRecord) : OverallConfidence :=
  if records.isEmpty then OverallConfidence.NONE
  else if records.all (fun r => decide (r.status = VStatus.VERIFIED)) then OverallConfidence.HIGH
  else if records.any (fun r =>
      decide (r.status = VStatus.VERIFIED ∨ r.status = VStatus.PARTIALLY_VERIFIED)) then
    OverallConfidence.MEDIUM
  else OverallConfidence.LOW

/-- Modelled from the spec: the Response Assembler. An empty record list
returns the draft unchanged with confidence NONE; when every record is
excluded the answer degrades to the fixed fallback string; otherwise the
kept records are stitched in draft order with their citations. -/
def assemble (draft : String) (records : List VerificationRecord) (mode : AssemblyMode) :
    VerificationResult :=
  if records.isEmpty then ⟨draft, [], OverallConfidence.NONE⟩
  else
    let kept := keptRecords mode records
    let excluded := ((sortRecords records).filter statusBad).map (fun r => r.claim)
    let answer := if kept.isEmpty then FALLBACK else joinSpace (kept.map renderRecord)
    ⟨answer, excluded, overallConfidence records⟩

/-- Records of one run: each extracted claim scored against the evidence a
locator function returns for it. -/
def runRecords (t : ℚ) (locate : Claim → List EvidenceSpan) (claims : List Claim) :
    List VerificationRecord :=
  claims.map (fun c => scoreClaim c (locate c) t)

/-- Modelled from the spec: the single invocation surface
verify_and_assemble, composed of extraction, evidence location, scoring and
assembly, parametrised by the pluggable similarity and relation strategies
and the extraction policy. -/
def verify_and_assemble (sim : String → String → ℚ) (rel : String → String → Relation)
    (extract : String → List Claim) (corpus : Corpus) (draft : String)
    (mode : AssemblyMode) (scope : Option (List String)) (threshold : ℚ)
    (maxResults : ℕ) : VerificationResult :=
  let claims := extract draft
  let records := runRecords threshold
    (fun c => locateEvidence sim rel corpus c scope maxResults) claims
  assemble draft records mode

/-! ## Error propagation (modelled from the spec) -/

/-- Modelled from the spec: fatal run-level failures, corpus unreachable and
cooperative cancellation. -/
inductive RunError where
  | corpusUnavailable
  | cancelled
deriving DecidableEq, Repr

/-- Modelled from the spec: outcome of one per-claim Evidence Locator task:
spans found, an individual timeout, an unreachable corpus, or
cancellation. -/
inductive LocateOutcome where
  | ok (spans : List EvidenceSpan)
  | timeout
  | corpusUnavailable
  | cancelled
deriving DecidableEq, Repr

/-- Modelled from the spec: per-claim record collection with the stated
propagation policy: a timeout degrades that claim to empty evidence
(NO_EVIDENCE, fail-closed), while an unreachable corpus or cancellation
fails the whole run. -/
def collectRecords (locate : Claim → LocateOutcome) (t : ℚ) :
    List Claim → Except RunError (List VerificationRecord)
  | [] => Except.ok []
  | c :: rest =>
    match locate c with
    | LocateOutcome.corpusUnavailable => Except.error RunError.corpusUnavailable
    | LocateOutcome.cancelled => Except.error RunError.cancelled
    | LocateOutcome.timeout =>
      match collectRecords locate t rest with
      | Except.ok recs => Except.ok (scoreClaim c [] t :: recs)
      | Except.error e => Except.error e
    | LocateOutcome.ok spans =>
      match collectRecords locate t rest with
      | Except.ok recs => Except.ok (scoreClaim c spans t :: recs)
      | Except.error e => Except.error e

/-- Modelled from the spec: a whole verification run over fallible per-claim
locator tasks: no partial answer is assembled when collection fails. -/
def runVerification (locate : Claim → LocateOutcome) (t : ℚ) (draft : String)
    (mode : AssemblyMode) (claims : List Claim) : Except RunError VerificationResult :=
  match collectRecords locate t claims with
  | Except.ok recs => Except.ok (assemble draft recs mode)
  | Except.error e => Except.error e

/-! ## Concrete instances used by witnesses and counterexamples -/

/-- Constant similarity strategy used by the partial-verification
counterexample. -/
def cexSim : String → String → ℚ := fun _ _ => 3/5

/-- Constant supportive relation strategy for concrete runs. -/
def cexRel : String → String → Relation := fun _ _ => Relation.SUPPORTS

/-- One-file one-line corpus for concrete runs. -/
def cexCorpus : Corpus := [("doc.txt", ["the sky is blue"])]

/-- Concrete claim for concrete runs. -/
def cexClaim : Claim := ⟨"the sky appears blue", (0, 20)⟩

/-- Extraction policy returning exactly the concrete claim. -/
def cexExtract : String → List Claim := fun _ => [cexClaim]

/-- Constant similarity strategy above the default threshold, used by the
verified-claim witness. -/
def witSim : String → String → ℚ := fun _ _ => 4/5

/-- The single evidence span the locator produces on the concrete corpus
under cexSim and cexRel. -/
def cexSpan : EvidenceSpan :=
  ⟨"doc.txt", (1, 1), "the sky is blue", Relation.SUPPORTS, 3/5⟩

/-- A single evidence span scored by witSim, used by the monotonicity
witness. -/
def witSpan : EvidenceSpan :=
  ⟨"doc.txt", (1, 1), "the sky is blue", Relation.SUPPORTS, 4/5⟩

/-- Record of the concrete claim scored with no evidence at all. -/
def cexNoEvidenceRecord : VerificationRecord := scoreClaim cexClaim [] (7/10)

/-- Number of claim-evidence pairs the Confidence Scorer classifies
VERIFIED at a given confidence threshold. -/
def countVerified (t : ℚ) (items : List (Claim × List EvidenceSpan)) : ℕ :=
  (items.filter (fun p => decide ((scoreClaim p.1 p.2 t).status = VStatus.VERIFIED))).length

/-! ## Helper lemmas: frontend -/

/-- Every threshold surviving the parse filter, and every default threshold,
is positive. -/
theorem parseThresholds_pos (env : Option String) :
    ∀ t ∈ parseThresholds env, 0 < t := by
  intro t ht
  have hdefault : ∀ u ∈ defaultThresholds, (0 : Int) < u := by
    intro u hu
    simp [defaultThresholds] at hu
    rcases hu with h | h | h | h | h | h <;> omega
  cases env with
  | none => exact hdefault t ht
  | some s =>
    by_cases hs : s = ""
    · simp [parseThresholds, hs] at ht
      exact hdefault t ht
    · by_cases hp : parsedFiltered s = []
      · simp [parseThresholds, hs, hp] at ht
        exact hdefault t ht
      · simp [parseThresholds, hs, hp] at ht
        have := (List.mem_filter.mp ht).2
        simpa using this

/-- Characterization of the popup trigger over a positive threshold list. -/
theorem shouldShowRating_iff (ths dismissed : List Int) (count : ℕ)
    (hpos : ∀ t ∈ ths, 0 < t) :
    shouldShowRating ths dismissed count = true ↔
      ∃ t ∈ ths, (count : Int) = t ∧ t ∉ dismissed := by
  unfold shouldShowRating
  cases hf : ths.find? (fun t => decide ((count : Int) = t) && !(dismissed.contains t)) with
  | none =>
    simp only [Bool.false_eq_true, false_iff]
    rintro ⟨t, ht, hc, hd⟩
    have hsome : (ths.find?
        (fun t => decide ((count : Int) = t) && !(dismissed.contains t))).isSome = true := by
      refine List.find?_isSome.mpr ⟨t, ht, ?_⟩
      simp [hc, hd]
    rw [hf] at hsome
    simp at hsome
  | some u =>
    have hu := List.find?_some hf
    have hmem := List.mem_of_find?_eq_some hf
    simp only [Bool.and_eq_true, decide_eq_true_eq, Bool.not_eq_true'] at hu
    have hne : u ≠ 0 := by have := hpos u hmem; omega
    simp only [decide_eq_true hne, true_iff]
    exact ⟨u, hmem, hu.1, by simpa using hu.2⟩

/-! ## Claim theorems: frontend -/

/-- Claim C8: submitScore is total and non-throwing: it returns false and
submits nothing when traceId is undefined, when the Langfuse client is
unconfigured (getLangfuseClient is none because the public key is absent),
or when the underlying client.score call throws; it returns true exactly
when the score call completed without error. -/
theorem submitScore_fail_closed (params : ScoreParams) (env : LangfuseEnv)
    (scoreThrows : Bool) :
    (params.traceId = none → submitScore params env scoreThrows = ⟨false, false⟩)
    ∧ (getLangfuseClient env = none → submitScore params env scoreThrows = ⟨false, false⟩)
    ∧ (env.publicKey = none → getLangfuseClient env = none)
    ∧ (scoreThrows = true → submitScore params env scoreThrows = ⟨false, false⟩)
    ∧ ((submitScore params env scoreThrows).result = true ↔
        jsTruthy params.traceId = true ∧ (getLangfuseClient env).isSome = true
          ∧ scoreThrows = false)
    ∧ (submitScore params env scoreThrows).submitted = (submitScore params env scoreThrows).result := by
  refine ⟨?_, ?_, ?_, ?_, ?_, ?_⟩
  · intro h
    simp [submitScore, h, jsTruthy]
  · intro h
    cases hjt : jsTruthy params.traceId <;> simp [submitScore, h, hjt]
  · intro h
    simp [getLangfuseClient, h]
  · intro h
    cases hjt : jsTruthy params.traceId <;>
      cases hcl : getLangfuseClient env <;> simp [submitScore, h, hjt, hcl]
  · cases hjt : jsTruthy params.traceId <;>
      cases hcl : getLangfuseClient env <;>
        cases scoreThrows <;> simp [submitScore, hjt, hcl]
  · cases hjt : jsTruthy params.traceId <;>
      cases hcl : getLangfuseClient env <;>
        cases scoreThrows <;> simp [submitScore, hjt, hcl]

/-- Claim C9: the rating popup trigger fires exactly when the ai-message
count equals a configured threshold not yet dismissed; the threshold list
parsed from VITE_RATING_THRESHOLDS discards NaN and non-positive entries
and falls back to the default list when the variable is unset, empty, or no
entry survives. -/
theorem ratingTrigger_characterization (env : Option String) (dismissed : List Int)
    (msgs : List Message) (s : String) :
    parseThresholds none = [5, 10, 15, 20, 25, 30]
    ∧ (parsedFiltered s = [] → parseThresholds (some s) = [5, 10, 15, 20, 25, 30])
    ∧ (s ≠ "" → parsedFiltered s ≠ [] → parseThresholds (some s) = parsedFiltered s)
    ∧ (∀ t ∈ parseThresholds env, 0 < t)
    ∧ (shouldShowRating (parseThresholds env) dismissed (aiMessageCount msgs) = true ↔
        ∃ t ∈ parseThresholds env, (aiMessageCount msgs : Int) = t ∧ t ∉ dismissed) := by
  refine ⟨rfl, ?_, ?_, parseThresholds_pos env, ?_⟩
  · intro hp
    by_cases hs : s = "" <;> simp [parseThresholds, hs, hp, defaultThresholds]
  · intro hs hp
    simp [parseThresholds, hs, hp]
  · exact shouldShowRating_iff _ dismissed _ (parseThresholds_pos env)

/-- Claim C10: selecting a rating option with nonzero value submits the
score immediately with no comment, selecting the zero (Bad) option opens
the comment box without submitting, and submitRating with an undefined
traceId only calls onComplete and submits nothing. -/
theorem conversationRating_flow (tid : Option String) (v : ℚ) (c : Option String)
    (t : String) :
    (v = 0 → handleSelect tid v = [RatingEffect.showCommentBox])
    ∧ (v ≠ 0 → handleSelect tid v = submitRating tid v none)
    ∧ (v ≠ 0 → t ≠ "" → handleSelect (some t) v =
        [RatingEffect.score t "conversation_rating" v none, RatingEffect.complete])
    ∧ (submitRating none v c = [RatingEffect.complete]) := by
  refine ⟨?_, ?_, ?_, rfl⟩
  · intro h
    simp [handleSelect, h]
  · intro h
    simp [handleSelect, h]
  · intro hv ht
    simp [handleSelect, hv, submitRating, ht, jsOrUndefined]

/-! ## Helper lemmas: Confidence Scorer -/

/-- Scoring never changes the claim of a record. -/
theorem scoreClaim_claim (c : Claim) (ev : List EvidenceSpan) (t : ℚ) :
    (scoreClaim c ev t).claim = c := by
  cases ev <;> rfl

/-- Scoring never changes the evidence of a record. -/
theorem scoreClaim_evidence (c : Claim) (ev : List EvidenceSpan) (t : ℚ) :
    (scoreClaim c ev t).evidence = ev := by
  cases ev <;> rfl

/-- The status table never yields NO_EVIDENCE for an existing best span. -/
theorem scoreStatus_ne_noEvidence (t : ℚ) (best : EvidenceSpan) :
    scoreStatus t best ≠ VStatus.NO_EVIDENCE := by
  unfold scoreStatus
  split_ifs <;> simp

/-- Status characterization: NO_EVIDENCE holds exactly on empty evidence. -/
theorem scoreClaim_noEvidence_iff (c : Claim) (ev : List EvidenceSpan) (t : ℚ) :
    (scoreClaim c ev t).status = VStatus.NO_EVIDENCE ↔ ev = [] := by
  cases ev with
  | nil => simp [scoreClaim]
  | cons best rest => simp [scoreClaim, scoreStatus_ne_noEvidence t best]

/-- Status table characterization of CONTRADICTED. -/
theorem scoreStatus_contradicted_iff (t : ℚ) (best : EvidenceSpan) :
    scoreStatus t best = VStatus.CONTRADICTED ↔
      best.relation = Relation.CONTRADICTS ∧ contradictionThreshold ≤ best.match_score := by
  unfold scoreStatus
  split_ifs with h1 h2 h3 h4 <;> simp_all

/-- Record-level characterization of CONTRADICTED. -/
theorem scoreClaim_contradicted_iff (c : Claim) (ev : List EvidenceSpan) (t : ℚ) :
    (scoreClaim c ev t).status = VStatus.CONTRADICTED ↔
      ∃ best rest, ev = best :: rest ∧ best.relation = Relation.CONTRADICTS
        ∧ contradictionThreshold ≤ best.match_score := by
  cases ev with
  | nil => simp [scoreClaim]
  | cons best rest =>
    simp only [scoreClaim]
    rw [scoreStatus_contradicted_iff]
    constructor
    · intro h
      exact ⟨best, rest, rfl, h.1, h.2⟩
    · rintro ⟨b, r, hbr, h1, h2⟩
      injection hbr with hb hr
      subst hb
      exact ⟨h1, h2⟩

/-- Status table characterization of VERIFIED: supportive best evidence at
or above the high bound or the run threshold. -/
theorem scoreStatus_verified_iff (t : ℚ) (best : EvidenceSpan) :
    scoreStatus t best = VStatus.VERIFIED ↔
      best.relation = Relation.SUPPORTS
        ∧ (highThreshold ≤ best.match_score ∨ t ≤ best.match_score) := by
  unfold scoreStatus
  split_ifs with h1 h2 h3 h4 <;> simp_all

/-- Record-level characterization of VERIFIED. -/
theorem scoreClaim_verified_iff (c : Claim) (ev : List EvidenceSpan) (t : ℚ) :
    (scoreClaim c ev t).status = VStatus.VERIFIED ↔
      ∃ best rest, ev = best :: rest ∧ best.relation = Relation.SUPPORTS
        ∧ (highThreshold ≤ best.match_score ∨ t ≤ best.match_score) := by
  cases ev with
  | nil => simp [scoreClaim]
  | cons best rest =>
    simp only [scoreClaim]
    rw [scoreStatus_verified_iff]
    constructor
    · intro h
      exact ⟨best, rest, rfl, h.1, h.2⟩
    · rintro ⟨b, r, hbr, h1, h2⟩
      injection hbr with hb hr
      subst hb
      exact ⟨h1, h2⟩

/-- A PARTIALLY_VERIFIED status implies the best score reached the partial
floor. -/
theorem scoreStatus_partially_floor (t : ℚ) (best : EvidenceSpan) :
    scoreStatus t best = VStatus.PARTIALLY_VERIFIED →
      partialFloor ≤ best.match_score := by
  unfold scoreStatus
  split_ifs with h1 h2 h3 h4 <;> simp_all

/-! ## Claim theorems: Confidence Scorer -/

/-- Claim C5: threshold monotonicity: for a fixed list of claims with their
evidence sets, raising the confidence threshold never increases the number
of claims classified VERIFIED. -/
theorem confidence_threshold_monotone (items : List (Claim × List EvidenceSpan))
    (t1 t2 : ℚ) (h : t1 ≤ t2) :
    countVerified t2 items ≤ countVerified t1 items := by
  unfold countVerified
  refine List.Sublist.length_le (List.monotone_filter_right _ ?_)
  intro p hp
  rw [decide_eq_true_eq] at hp ⊢
  rw [scoreClaim_verified_iff] at hp ⊢
  obtain ⟨best, rest, hev, hrel, hsc⟩ := hp
  exact ⟨best, rest, hev, hrel, hsc.imp id (fun hs => le_trans h hs)⟩

/-- Witness for claim C5 at a concrete one-item evidence list and the
threshold pair one half and seven tenths. -/
theorem confidence_threshold_monotone_witness :
    countVerified (7/10) [(cexClaim, [witSpan])] ≤ countVerified (1/2) [(cexClaim, [witSpan])] :=
  confidence_threshold_monotone [(cexClaim, [witSpan])] (1/2) (7/10) (by norm_num)

/-! ## Helper lemmas: Response Assembler -/

/-- A record excluded from the final text always appears in the audit
filter. -/
theorem statusBad_of_isExcluded (mode : AssemblyMode) (r : VerificationRecord)
    (h : isExcluded mode r = true) : statusBad r = true := by
  unfold isExcluded at h
  unfold statusBad
  cases hs : r.status <;> simp_all

/-- Any record of a nonempty batch whose status is bad contributes its
claim to excluded_claims. -/
theorem assemble_excluded_of_mem (draft : String) (records : List VerificationRecord)
    (mode : AssemblyMode) (r : VerificationRecord) (hr : r ∈ records)
    (hb : statusBad r = true) :
    r.claim ∈ (assemble draft records mode).excluded_claims := by
  have hne : records.isEmpty = false := by
    cases records with
    | nil => simp at hr
    | cons a l => rfl
  unfold assemble
  simp only [hne, Bool.false_eq_true, if_false]
  exact List.mem_map.mpr ⟨r,
    List.mem_filter.mpr ⟨(List.perm_insertionSort recLE records).mem_iff.mpr hr, hb⟩, rfl⟩

/-- Members of the kept list are members of the batch not excluded by the
mode. -/
theorem mem_keptRecords (mode : AssemblyMode) (records : List VerificationRecord)
    (r : VerificationRecord) (h : r ∈ keptRecords mode records) :
    r ∈ records ∧ isExcluded mode r = false := by
  unfold keptRecords at h
  obtain ⟨hs, hni⟩ := List.mem_filter.mp h
  exact ⟨(List.perm_insertionSort recLE records).mem_iff.mp hs, by simpa using hni⟩

/-! ## Claim theorems: status invariants -/

/-- Claim C2: a record is CONTRADICTED exactly when its best-ranked span
contradicts at or above the contradiction threshold, NO_EVIDENCE exactly
when its evidence is empty, and a claim located with no evidence is listed
in excluded_claims and kept out of the STRICT-mode output. -/
theorem verification_status_invariants (c : Claim) (ev : List EvidenceSpan) (t : ℚ)
    (claims : List Claim) (locate : Claim → List EvidenceSpan) (draft : String) :
    ((scoreClaim c ev t).status = VStatus.CONTRADICTED ↔
      ∃ best rest, ev = best :: rest ∧ best.relation = Relation.CONTRADICTS
        ∧ contradictionThreshold ≤ best.match_score)
    ∧ ((scoreClaim c ev t).status = VStatus.NO_EVIDENCE ↔ ev = [])
    ∧ (c ∈ claims → locate c = [] →
        c ∈ (assemble draft (runRecords t locate claims) AssemblyMode.STRICT).excluded_claims
        ∧ ∀ r ∈ keptRecords AssemblyMode.STRICT (runRecords t locate claims), r.claim ≠ c) := by
  refine ⟨scoreClaim_contradicted_iff c ev t, scoreClaim_noEvidence_iff c ev t, ?_⟩
  intro hc hl
  have hr0 : scoreClaim c [] t ∈ runRecords t locate claims := by
    unfold runRecords
    exact List.mem_map.mpr ⟨c, hc, by rw [hl]⟩
  constructor
  · have := assemble_excluded_of_mem draft (runRecords t locate claims) AssemblyMode.STRICT
      (scoreClaim c [] t) hr0 rfl
    simpa [scoreClaim_claim] using this
  · intro r hrk hclaim
    obtain ⟨hrr, hni⟩ := mem_keptRecords _ _ _ hrk
    obtain ⟨c2, hc2, hr2⟩ := List.mem_map.mp hrr
    have hcc : c2 = c := by
      rw [← hr2] at hclaim
      simpa [scoreClaim_claim] using hclaim
    subst hcc
    rw [hl] at hr2
    rw [← hr2] at hni
    simp [isExcluded, scoreClaim] at hni

/-- Claim C3: when a nonempty batch of records is entirely excluded by the
assembler, the final answer is exactly the fixed fallback string and
excluded_claims lists the claim of every record. -/
theorem all_excluded_fallback (draft : String) (records : List VerificationRecord)
    (mode : AssemblyMode) (hne : records ≠ [])
    (hex : ∀ r ∈ records, isExcluded mode r = true) :
    (assemble draft records mode).final_answer = FALLBACK
    ∧ (∀ r ∈ records, r.claim ∈ (assemble draft records mode).excluded_claims)
    ∧ (assemble draft records mode).excluded_claims.length = records.length := by
  have hempty : records.isEmpty = false := by
    cases records with
    | nil => exact absurd rfl hne
    | cons a l => rfl
  have hkept : keptRecords mode records = [] := by
    unfold keptRecords
    rw [List.filter_eq_nil_iff]
    intro r hrs
    have hr : r ∈ records := (List.perm_insertionSort recLE records).mem_iff.mp hrs
    simp [hex r hr]
  have hbadall : (sortRecords records).filter statusBad = sortRecords records := by
    rw [List.filter_eq_self]
    intro r hrs
    exact statusBad_of_isExcluded mode r
      (hex r ((List.perm_insertionSort recLE records).mem_iff.mp hrs))
  refine ⟨?_, ?_, ?_⟩
  · unfold assemble
    simp only [hempty, Bool.false_eq_true, if_false]
    simp [hkept]
  · intro r hr
    exact assemble_excluded_of_mem draft records mode r hr
      (statusBad_of_isExcluded mode r (hex r hr))
  · unfold assemble
    simp only [hempty, Bool.false_eq_true, if_false]
    simp only [hbadall, List.length_map]
    exact List.Perm.length_eq (List.perm_insertionSort recLE records)

/-- Witness for claim C3: one claim with no corpus match at all degrades to
the fixed fallback, and excluded_claims has length one. -/
theorem all_excluded_fallback_witness :
    (assemble "draft" [cexNoEvidenceRecord] AssemblyMode.STRICT).final_answer = FALLBACK
    ∧ (∀ r ∈ [cexNoEvidenceRecord],
        r.claim ∈ (assemble "draft" [cexNoEvidenceRecord] AssemblyMode.STRICT).excluded_claims)
    ∧ (assemble "draft" [cexNoEvidenceRecord] AssemblyMode.STRICT).excluded_claims.length
        = [cexNoEvidenceRecord].length :=
  all_excluded_fallback "draft" [cexNoEvidenceRecord] AssemblyMode.STRICT (by simp)
    (by
      intro r hr
      simp only [List.mem_singleton] at hr
      subst hr
      rfl)

/-! ## Helper lemmas: error propagation -/

/-- Collection succeeds when no per-claim task hits a fatal outcome. -/
theorem collectRecords_ok_of_no_fatal (locate : Claim → LocateOutcome) (t : ℚ) :
    ∀ claims : List Claim,
      (∀ c ∈ claims, locate c ≠ LocateOutcome.corpusUnavailable
        ∧ locate c ≠ LocateOutcome.cancelled) →
      ∃ recs, collectRecords locate t claims = Except.ok recs := by
  intro claims
  induction claims with
  | nil => exact fun _ => ⟨[], rfl⟩
  | cons c rest ih =>
    intro h
    obtain ⟨recs, hr⟩ := ih (fun x hx => h x (List.mem_cons_of_mem _ hx))
    have hc := h c (List.mem_cons_self c rest)
    cases hl : locate c with
    | corpusUnavailable => exact absurd hl hc.1
    | cancelled => exact absurd hl hc.2
    | timeout => exact ⟨scoreClaim c [] t :: recs, by rw [collectRecords, hl, hr]⟩
    | ok spans => exact ⟨scoreClaim c spans t :: recs, by rw [collectRecords, hl, hr]⟩

/-- A claim whose task timed out contributes a NO_EVIDENCE record to any
successful collection. -/
theorem collectRecords_timeout_noEvidence (locate : Claim → LocateOutcome) (t : ℚ)
    (c : Claim) (hto : locate c = LocateOutcome.timeout) :
    ∀ claims recs, c ∈ claims → collectRecords locate t claims = Except.ok recs →
      ∃ r ∈ recs, r.claim = c ∧ r.status = VStatus.NO_EVIDENCE := by
  intro claims
  induction claims with
  | nil =>
    intro recs hc
    simp at hc
  | cons c2 rest ih =>
    intro recs hc hcol
    rcases List.mem_cons.mp hc with hec | hmem
    · subst hec
      rw [collectRecords, hto] at hcol
      cases hrest : collectRecords locate t rest with
      | ok recs2 =>
        rw [hrest] at hcol
        simp only [Except.ok.injEq] at hcol
        subst hcol
        exact ⟨scoreClaim c [] t, List.mem_cons_self _ _, scoreClaim_claim c [] t,
          (scoreClaim_noEvidence_iff c [] t).mpr rfl⟩
      | error e =>
        rw [hrest] at hcol
        simp at hcol
    · cases hl : locate c2 with
      | corpusUnavailable =>
        rw [collectRecords, hl] at hcol
        simp at hcol
      | cancelled =>
        rw [collectRecords, hl] at hcol
        simp at hcol
      | timeout =>
        rw [collectRecords, hl] at hcol
        cases hrest : collectRecords locate t rest with
        | ok recs2 =>
          rw [hrest] at hcol
          simp only [Except.ok.injEq] at hcol
          subst hcol
          obtain ⟨r, hrm, h1, h2⟩ := ih recs2 hmem hrest
          exact ⟨r, List.mem_cons_of_mem _ hrm, h1, h2⟩
        | error e =>
          rw [hrest] at hcol
          simp at hcol
      | ok spans =>
        rw [collectRecords, hl] at hcol
        cases hrest : collectRecords locate t rest with
        | ok recs2 =>
          rw [hrest] at hcol
          simp only [Except.ok.injEq] at hcol
          subst hcol
          obtain ⟨r, hrm, h1, h2⟩ := ih recs2 hmem hrest
          exact ⟨r, List.mem_cons_of_mem _ hrm, h1, h2⟩
        | error e =>
          rw [hrest] at hcol
          simp at hcol

/-- A fatal per-claim outcome anywhere in the batch fails the whole
collection. -/
theorem collectRecords_error_of_fatal (locate : Claim → LocateOutcome) (t : ℚ)
    (c : Claim) (hf : locate c = LocateOutcome.corpusUnavailable
      ∨ locate c = LocateOutcome.cancelled) :
    ∀ claims, c ∈ claims → ∃ e, collectRecords locate t claims = Except.error e := by
  intro claims
  induction claims with
  | nil =>
    intro hc
    simp at hc
  | cons c2 rest ih =>
    intro hc
    rcases List.mem_cons.mp hc with hec | hmem
    · subst hec
      rcases hf with h | h
      · exact ⟨_, by rw [collectRecords, h]⟩
      · exact ⟨_, by rw [collectRecords, h]⟩
    · obtain ⟨e, he⟩ := ih hmem
      cases hl : locate c2 with
      | corpusUnavailable => exact ⟨_, by rw [collectRecords, hl]⟩
      | cancelled => exact ⟨_, by rw [collectRecords, hl]⟩
      | timeout => exact ⟨e, by rw [collectRecords, hl, he]⟩
      | ok spans => exact ⟨e, by rw [collectRecords, hl, he]⟩

/-! ## Claim theorems: error propagation -/

/-- Claim C4: per-claim timeouts are absorbed locally: the run still
succeeds and the timed-out claim gets a NO_EVIDENCE record, while an
unreachable corpus or cancellation on any claim fails the whole run with no
result returned. -/
theorem error_propagation_policy (claims : List Claim) (locate : Claim → LocateOutcome)
    (t : ℚ) (draft : String) (mode : AssemblyMode) :
    ((∀ c ∈ claims, locate c ≠ LocateOutcome.corpusUnavailable
        ∧ locate c ≠ LocateOutcome.cancelled) →
      ∃ res, runVerification locate t draft mode claims = Except.ok res)
    ∧ (∀ c ∈ claims, locate c = LocateOutcome.timeout →
        ∀ recs, collectRecords locate t claims = Except.ok recs →
          ∃ r ∈ recs, r.claim = c ∧ r.status = VStatus.NO_EVIDENCE)
    ∧ (∀ c ∈ claims, (locate c = LocateOutcome.corpusUnavailable
        ∨ locate c = LocateOutcome.cancelled) →
        ∃ e, runVerification locate t draft mode claims = Except.error e) := by
  refine ⟨?_, ?_, ?_⟩
  · intro h
    obtain ⟨recs, hr⟩ := collectRecords_ok_of_no_fatal locate t claims h
    exact ⟨assemble draft recs mode, by rw [runVerification, hr]⟩
  · intro c hc hto recs hcol
    exact collectRecords_timeout_noEvidence locate t c hto claims recs hc hcol
  · intro c hc hf
    obtain ⟨e, he⟩ := collectRecords_error_of_fatal locate t c hf claims hc
    exact ⟨e, by rw [runVerification, he]⟩

/-! ## Claim theorems: boundary and determinism -/

/-- Claim C7: a draft with zero extractable claims is a valid non-error
outcome: verify_and_assemble returns the draft unchanged with overall
confidence NONE, and the fallible runner succeeds on an empty claim
list. -/
theorem zero_claims_boundary (sim : String → String → ℚ) (rel : String → String → Relation)
    (extract : String → List Claim) (corpus : Corpus) (draft : String)
    (mode : AssemblyMode) (scope : Option (List String)) (t : ℚ) (k : ℕ)
    (locate : Claim → LocateOutcome) (h : extract draft = []) :
    verify_and_assemble sim rel extract corpus draft mode scope t k =
      ⟨draft, [], OverallConfidence.NONE⟩
    ∧ runVerification locate t draft mode [] =
        Except.ok ⟨draft, [], OverallConfidence.NONE⟩ := by
  constructor
  · unfold verify_and_assemble runRecords
    rw [h]
    rfl
  · rfl

/-- Witness for claim C7 at a concrete empty extraction over the concrete
corpus. -/
theorem zero_claims_boundary_witness :
    verify_and_assemble cexSim cexRel (fun _ => []) cexCorpus "what is the sky"
        AssemblyMode.STRICT none (7/10) 10 =
      ⟨"what is the sky", [], OverallConfidence.NONE⟩
    ∧ runVerification (fun _ => LocateOutcome.ok []) (7/10) "what is the sky"
        AssemblyMode.STRICT [] =
        Except.ok ⟨"what is the sky", [], OverallConfidence.NONE⟩ :=
  zero_claims_boundary cexSim cexRel (fun _ => []) cexCorpus "what is the sky"
    AssemblyMode.STRICT none (7/10) 10 (fun _ => LocateOutcome.ok []) rfl

/-- Claim C6: verify_and_assemble is deterministic: the same draft, mode,
scope and threshold against an unchanged corpus give the same result, and
the Evidence Locator output is fully ordered: sorted by match_score
descending with ties broken by file_id then line range ascending. -/
theorem deterministic_ordering (sim : String → String → ℚ) (rel : String → String → Relation)
    (extract : String → List Claim) (corpus : Corpus) (draft : String)
    (mode : AssemblyMode) (scope : Option (List String)) (t : ℚ) (k : ℕ) :
    verify_and_assemble sim rel extract corpus draft mode scope t k =
      verify_and_assemble sim rel extract corpus draft mode scope t k
    ∧ (∀ c : Claim, List.Sorted spanLE (locateEvidence sim rel corpus c scope k))
    ∧ (∀ a b : EvidenceSpan, spanLE a b ↔
        (b.match_score < a.match_score ∨ (a.match_score = b.match_score
          ∧ (a.file_id < b.file_id ∨ (a.file_id = b.file_id
            ∧ (a.line_range.1 < b.line_range.1 ∨ (a.line_range.1 = b.line_range.1
              ∧ a.line_range.2 ≤ b.line_range.2))))))) := by
  refine ⟨rfl, ?_, ?_⟩
  · intro c
    unfold locateEvidence
    exact List.Pairwise.sublist (List.take_sublist k _)
      (List.sorted_insertionSort spanLE _)
  · intro a b
    unfold spanLE spanKey
    rw [Prod.Lex.le_iff, Prod.Lex.le_iff, Prod.Lex.le_iff]
    simp [neg_lt_neg_iff, neg_inj]

/-! ## Helper lemmas: citation integrity -/

/-- Over a corpus with pairwise distinct file identifiers, looking a member
file up returns its lines. -/
theorem lookupFile_of_mem (corpus : Corpus) (p : String × List String)
    (hn : (corpus.map Prod.fst).Nodup) (hp : p ∈ corpus) :
    lookupFile corpus p.1 = p.2 := by
  induction corpus with
  | nil => simp at hp
  | cons q rest ih =>
    rcases List.mem_cons.mp hp with hq | hmem
    · subst hq
      unfold lookupFile
      simp
    · have hn1 : (q.1 :: rest.map Prod.fst).Nodup := by
        simpa only [List.map_cons] using hn
      have hn2 := List.nodup_cons.mp hn1
      have hq1 : ¬(q.1 = p.1) := by
        intro he
        exact hn2.1 (he ▸ List.mem_map.mpr ⟨p, hmem, rfl⟩)
      unfold lookupFile
      rw [List.find?_cons_of_neg _ (by simpa using hq1)]
      have := ih hn2.2 hmem
      simpa [lookupFile] using this

/-- Reading back the one-line range of a known file yields that line. -/
theorem readLines_single (corpus : Corpus) (fid : String) (lines : List String) (i : ℕ)
    (hl : lookupFile corpus fid = lines) (hi : i < lines.length) :
    readLines corpus fid (i + 1, i + 1) = lines.getD i "" := by
  unfold readLines
  rw [hl]
  simp only [Nat.add_sub_cancel, Nat.sub_self]
  rw [List.drop_eq_getElem_cons hi]
  simp only [List.take_succ_cons, List.take_zero, joinNL]
  exact (List.getD_eq_getElem lines "" hi).symm

/-- Every span of one file quotes the line its range points at. -/
theorem fileSpans_mem (sim : String → String → ℚ) (rel : String → String → Relation)
    (claimText fid : String) (lines : List String) (e : EvidenceSpan)
    (he : e ∈ fileSpans sim rel claimText fid lines) :
    ∃ i, i < lines.length ∧ e =
      ⟨fid, (i + 1, i + 1), lines.getD i "", rel claimText (lines.getD i ""),
        sim claimText (lines.getD i "")⟩ := by
  unfold fileSpans at he
  obtain ⟨i, hir, hei⟩ := List.mem_map.mp he
  exact ⟨i, List.mem_range.mp hir, hei.symm⟩

/-- Every span the Evidence Locator returns quotes exactly the corpus text
at its location, and carries the similarity of the claim to that text. -/
theorem locateEvidence_integrity (sim : String → String → ℚ)
    (rel : String → String → Relation) (corpus : Corpus) (c : Claim)
    (scope : Option (List String)) (k : ℕ) (hn : (corpus.map Prod.fst).Nodup)
    (e : EvidenceSpan) (he : e ∈ locateEvidence sim rel corpus c scope k) :
    e.quoted_text = readLines corpus e.file_id e.line_range
    ∧ e.match_score = sim c.text e.quoted_text := by
  unfold locateEvidence at he
  have he1 := List.Sublist.mem he (List.take_sublist _ _)
  have he2 := (List.perm_insertionSort spanLE _).mem_iff.mp he1
  obtain ⟨p, hp, hef⟩ := List.mem_flatMap.mp he2
  have hpc : p ∈ corpus := (List.mem_filter.mp hp).1
  obtain ⟨i, hi, hei⟩ := fileSpans_mem sim rel c.text p.1 p.2 e hef
  subst hei
  have hl := lookupFile_of_mem corpus p hn hpc
  exact ⟨(readLines_single corpus p.1 p.2 i hl hi).symm, rfl⟩

/-! ## Claim theorems: citation integrity -/

/-- Claim C1 (amended): every located span quotes exactly the corpus text
at its cited range and scores it with the run similarity; reading the cited
range back gives similarity at least the run threshold for VERIFIED claims
(for thresholds within the high bound), but for PARTIALLY_VERIFIED claims
only the partial floor of one half is guaranteed, which can lie below the
run threshold. -/
theorem citation_integrity_amended (sim : String → String → ℚ)
    (rel : String → String → Relation) (corpus : Corpus) (c : Claim)
    (scope : Option (List String)) (k : ℕ) (t : ℚ)
    (hn : (corpus.map Prod.fst).Nodup) (ht : t ≤ highThreshold) :
    (∀ e ∈ locateEvidence sim rel corpus c scope k,
      e.quoted_text = readLines corpus e.file_id e.line_range
      ∧ e.match_score = sim c.text e.quoted_text)
    ∧ (∀ best rest, locateEvidence sim rel corpus c scope k = best :: rest →
        ((scoreClaim c (best :: rest) t).status = VStatus.VERIFIED →
          t ≤ sim c.text (readLines corpus best.file_id best.line_range))
        ∧ ((scoreClaim c (best :: rest) t).status = VStatus.PARTIALLY_VERIFIED →
          partialFloor ≤ sim c.text (readLines corpus best.file_id best.line_range))) := by
  constructor
  · intro e he
    exact locateEvidence_integrity sim rel corpus c scope k hn e he
  · intro best rest hloc
    have hbm : best ∈ locateEvidence sim rel corpus c scope k := by
      rw [hloc]
      exact List.mem_cons_self best rest
    obtain ⟨hq, hs⟩ := locateEvidence_integrity sim rel corpus c scope k hn best hbm
    have key : sim c.text (readLines corpus best.file_id best.line_range)
        = best.match_score := by
      rw [← hq, ← hs]
    constructor
    · intro hv
      rw [scoreClaim_verified_iff] at hv
      obtain ⟨b, r, hbr, hrel, hsc⟩ := hv
      injection hbr with hb hr
      subst hb
      rw [key]
      rcases hsc with h | h
      · exact le_trans ht h
      · exact h
    · intro hp
      have hps : scoreStatus t best = VStatus.PARTIALLY_VERIFIED := by
        simpa [scoreClaim] using hp
      rw [key]
      exact scoreStatus_partially_floor t best hps

/-- Witness for the amended claim C1 on the concrete corpus with a
similarity of four fifths and the default threshold seven tenths. -/
theorem citation_integrity_amended_witness :
    (∀ e ∈ locateEvidence witSim cexRel cexCorpus cexClaim none 10,
      e.quoted_text = readLines cexCorpus e.file_id e.line_range
      ∧ e.match_score = witSim cexClaim.text e.quoted_text)
    ∧ (∀ best rest, locateEvidence witSim cexRel cexCorpus cexClaim none 10 = best :: rest →
        ((scoreClaim cexClaim (best :: rest) (7/10)).status = VStatus.VERIFIED →
          7/10 ≤ witSim cexClaim.text (readLines cexCorpus best.file_id best.line_range))
        ∧ ((scoreClaim cexClaim (best :: rest) (7/10)).status = VStatus.PARTIALLY_VERIFIED →
          partialFloor ≤ witSim cexClaim.text (readLines cexCorpus best.file_id best.line_range))) :=
  citation_integrity_amended witSim cexRel cexCorpus cexClaim none 10 (7/10)
    (by simp [cexCorpus]) (by norm_num [highThreshold])

/-- Counterexample to claim C1 as stated: on the concrete corpus, the run
threshold seven tenths produces a PARTIALLY_VERIFIED claim that is kept and
cited in the final answer, yet the read-back text of its cited range has
similarity three fifths, below the threshold used for the run. -/
theorem citation_integrity_cex :
    (scoreClaim cexClaim (locateEvidence cexSim cexRel cexCorpus cexClaim none 10)
        (7/10)).status = VStatus.PARTIALLY_VERIFIED
    ∧ isExcluded AssemblyMode.STRICT
        (scoreClaim cexClaim (locateEvidence cexSim cexRel cexCorpus cexClaim none 10)
          (7/10)) = false
    ∧ (verify_and_assemble cexSim cexRel cexExtract cexCorpus "the sky appears blue"
        AssemblyMode.STRICT none (7/10) 10).final_answer
        = "the sky appears blue [doc.txt:1] (caveat)"
    ∧ cexSim cexClaim.text (readLines cexCorpus "doc.txt" (1, 1)) < 7/10 := by
  have hloc : locateEvidence cexSim cexRel cexCorpus cexClaim none 10 = [cexSpan] := rfl
  have hstat : scoreStatus (7/10) cexSpan = VStatus.PARTIALLY_VERIFIED := by
    norm_num [scoreStatus, cexSpan, contradictionThreshold, highThreshold, partialFloor]
    intro h
    exact Relation.noConfusion h
  have hrec : scoreClaim cexClaim (locateEvidence cexSim cexRel cexCorpus cexClaim none 10)
      (7/10) = ⟨cexClaim, [cexSpan], VStatus.PARTIALLY_VERIFIED, 3/5⟩ := by
    rw [hloc]
    simp only [scoreClaim, hstat]
    rfl
  have hrun : verify_and_assemble cexSim cexRel cexExtract cexCorpus "the sky appears blue"
      AssemblyMode.STRICT none (7/10) 10 =
      assemble "the sky appears blue"
        [⟨cexClaim, [cexSpan], VStatus.PARTIALLY_VERIFIED, 3/5⟩] AssemblyMode.STRICT := by
    unfold verify_and_assemble runRecords
    simp only [cexExtract, List.map_cons, List.map_nil]
    rw [hrec]
  refine ⟨?_, ?_, ?_, ?_⟩
  · rw [hrec]
  · rw [hrec]
    rfl
  · rw [hrun]
    rfl
  · norm_num [cexSim]
